import Mathlib

/-!
Verification of the ml-pipeline-app training-session orchestration subsystem.

The repository under review is the React/TypeScript client of an AutoML
pipeline.  The client code (Dashboard, Results, ApiContext, api service) is
embedded directly from the source files.  The backend services (Session State
Store, Training Scheduler, Results Aggregator, Prediction and Explainability
Services) are not part of the reviewed source tree; they are modelled from the
specification, and every such definition carries a doc comment saying so.

All numeric values are modelled as rationals; JavaScript runtime values that
the client manipulates are modelled by the inductive type JsValue.
-/

namespace MLPipeline

/-- A JavaScript runtime value as handled by the Results page preview form:
null, undefined, a string, or a (finite) number.  NaN is represented by the
failure of the surrounding parse function, never as a value. -/
inductive JsValue where
  | vNull
  | vUndef
  | vStr (s : String)
  | vNum (q : ℚ)
deriving DecidableEq, Repr

/-- One column of the input schema captured at training time
(Results.tsx renders one form field per entry of results.input_schema). -/
structure SchemaColumn where
  name : String
  dtype : String
  exampleValue : JsValue
deriving DecidableEq, Repr

/-- Whether the second character list occurs at the start of the first. -/
def strStartsWith : List Char → List Char → Bool
  | _, [] => true
  | [], _ :: _ => false
  | c :: cs, p :: ps => c == p && strStartsWith cs ps

/-- Whether the second character list occurs anywhere inside the first. -/
def charsContain : List Char → List Char → Bool
  | [], p => p.isEmpty
  | c :: rest, p => strStartsWith (c :: rest) p || charsContain rest p

/-- Substring containment on strings, used to model the JavaScript
String.prototype.includes calls of the client. -/
def containsSub (hay pat : String) : Bool :=
  charsContain hay.data pat.data

/-- Lower-casing of a string, character by character, modelling the JavaScript
String.prototype.toLowerCase call on the ASCII dtype names the client sees. -/
def lowerString (s : String) : String :=
  String.mk (s.data.map Char.toLower)

/-- From Results.tsx handleRunPreview (line 147): a column counts as numeric
when its lower-cased dtype contains int, float or double. -/
def dtypeIsNumeric (dtype : String) : Bool :=
  let d := lowerString dtype
  containsSub d "int" || containsSub d "float" || containsSub d "double"

/-- The JavaScript Number() coercion applied to a runtime value.  The string
case is a parameter (parse), with none standing for NaN; Number(null) is 0 and
Number(undefined) is NaN. -/
def jsNumberOf (parse : String → Option ℚ) : JsValue → Option ℚ
  | .vStr s => parse s
  | .vNum q => some q
  | .vNull => some 0
  | .vUndef => none

/-- From Results.tsx handleRunPreview (lines 139-153): per-column coercion of
the raw preview value.  Empty string or undefined becomes null; on a numeric
dtype the value is passed through Number() with NaN mapped to null; otherwise
the raw value is passed through unchanged. -/
def coerceValue (parse : String → Option ℚ) (dtype : String) (raw : JsValue) : JsValue :=
  if raw = .vStr "" ∨ raw = .vUndef then .vNull
  else if dtypeIsNumeric dtype then
    match jsNumberOf parse raw with
    | some q => .vNum q
    | none => .vNull
  else raw

/-- From Results.tsx handleRunPreview (lines 136-153): the inputs mapping sent
to the predict endpoint, built with one entry per schema column. -/
def buildInputs (parse : String → Option ℚ) (schema : List SchemaColumn)
    (previewInputs : String → JsValue) : List (String × JsValue) :=
  schema.map (fun column => (column.name, coerceValue parse column.dtype (previewInputs column.name)))

/-- Problem types accepted by the Dashboard page. -/
inductive ProblemType where
  | classification
  | regression
  | clustering
deriving DecidableEq, Repr

/-- The Dashboard training configuration controls (testSize, randomState,
cvFolds) from the config state object of Dashboard.tsx. -/
structure TrainingSettings where
  testSize : ℚ
  randomState : ℤ
  cvFolds : ℕ
deriving DecidableEq, Repr

/-- The slice of Dashboard.tsx component state that handleTrain reads. -/
structure DashboardState where
  fileId : String
  selectedTarget : String
  selectedFeatures : List String
  problemType : ProblemType
  selectedAlgorithms : List String
  config : TrainingSettings
deriving DecidableEq, Repr

/-- The request body assembled by Dashboard.tsx handleTrain (lines 599-608)
and posted to the train endpoint by trainModels of services/api.ts. -/
structure TrainingRequest where
  file_id : String
  target_column : Option String
  selected_features : List String
  problem_type : ProblemType
  selected_algorithms : List String
  test_size : ℚ
  random_state : ℤ
  cv_folds : ℕ
deriving DecidableEq, Repr

/-- Outcome of one invocation of handleTrain: either an early return with a
toast error message, or a request submitted to the train endpoint. -/
inductive TrainAction where
  | reject (message : String)
  | submit (request : TrainingRequest)
deriving DecidableEq, Repr

/-- From Dashboard.tsx handleTrain (lines 572-608): the four validation guards
in source order, then the assembled training request. -/
def handleTrain (st : DashboardState) : TrainAction :=
  if st.selectedTarget = "" ∧ ¬ st.problemType = .clustering then
    .reject "Please select a target column"
  else if st.selectedAlgorithms = [] then
    .reject "Please select at least one algorithm"
  else if st.selectedFeatures = [] then
    .reject "Please select at least one required feature"
  else if st.selectedFeatures.contains st.selectedTarget then
    .reject "Target column cannot be part of selected features"
  else
    .submit
      { file_id := st.fileId
        target_column := if st.problemType = .clustering then none else some st.selectedTarget
        selected_features := st.selectedFeatures
        problem_type := st.problemType
        selected_algorithms := st.selectedAlgorithms
        test_size := st.config.testSize
        random_state := st.config.randomState
        cv_folds := st.config.cvFolds }

/-- From Dashboard.tsx onFeatureToggle (lines 748-760): toggles a feature in
the selection and clears the selected target when it would end up inside the
feature list.  Returns the new (selectedFeatures, selectedTarget) pair. -/
def onFeatureToggle (feature : String) (selectedFeatures : List String)
    (selectedTarget : String) : List String × String :=
  let next :=
    if selectedFeatures.contains feature then
      selectedFeatures.filter (fun name => !(name == feature))
    else selectedFeatures ++ [feature]
  (next, if next.contains selectedTarget then "" else selectedTarget)

/-- The state fields spread into the Api context value
(contexts/ApiContext.tsx, the ApiState interface). -/
def apiContextStateFields : List String :=
  ["isLoading", "error", "trainingProgress", "activeSessions"]

/-- The member names of the contextValue object built by the ApiProvider
(contexts/ApiContext.tsx lines 213-225): the spread state fields followed by
the ten functions listed there. -/
def apiContextValueKeys : List String :=
  apiContextStateFields ++
    ["uploadDataset", "getDatasetInfo", "validateDataset", "getAlgorithms",
     "trainModels", "getSessionResults", "downloadModel", "clearError",
     "clearTrainingProgress", "deleteSession"]

/-- JavaScript semantics of calling a member destructured from an object: a
name absent from the object reads as undefined, and calling undefined throws a
TypeError before the underlying request (call) could run. -/
def callMember (keys : List String) (name : String) (call : Unit → Except String α) :
    Except String α :=
  if keys.contains name then call () else Except.error "TypeError"

/-- Outcome of one invocation of handleRunPreview on the Results page. -/
inductive PreviewOutcome (α : Type) where
  | noSession
  | previewSet (response : α)
  | toastFailure (message : String)

/-- From Results.tsx handleRunPreview (lines 131-168): early return without a
session id; otherwise build the coerced inputs and call the destructured
predictModel member inside try/catch, the catch arm raising the toast
Failed to run preview. -/
def handleRunPreview (keys : List String) (sessionId : Option String)
    (parse : String → Option ℚ) (schema : List SchemaColumn)
    (previewInputs : String → JsValue)
    (callPredict : List (String × JsValue) → Except String α) : PreviewOutcome α :=
  match sessionId with
  | none => .noSession
  | some _ =>
    let inputs := buildInputs parse schema previewInputs
    match callMember keys "predictModel" (fun _ => callPredict inputs) with
    | .ok response => .previewSet response
    | .error _ => .toastFailure "Failed to run preview"

/-- Outcome of one invocation of loadXai on the Results page. -/
inductive XaiOutcome (α β : Type) where
  | noSession
  | dataSet (explanations : α) (importance : β)
  | errorSet (message : String)

/-- From Results.tsx loadXai (lines 170-191): early return without a session
id; otherwise call the destructured getExplainability and getFeatureImportance
members inside try/catch, the catch arm setting the xai error string. -/
def loadXai (keys : List String) (sessionId : Option String)
    (callExplain : ℚ → Except String α) (callImportance : String → Except String β)
    (sampleIndex : ℚ) (method : String) : XaiOutcome α β :=
  match sessionId with
  | none => .noSession
  | some _ =>
    match callMember keys "getExplainability" (fun _ => callExplain sampleIndex),
          callMember keys "getFeatureImportance" (fun _ => callImportance method) with
    | .ok explanations, .ok importance => .dataSet explanations importance
    | .error _, _ => .errorSet "Failed to load explainability data"
    | _, .error _ => .errorSet "Failed to load explainability data"

/-- JavaScript truthiness fallback: the expression x or-else 0 yields 0 when x
is 0 or NaN (none), and x itself otherwise. -/
def jsOrZero (q : Option ℚ) : ℚ :=
  match q with
  | some v => if v = 0 then 0 else v
  | none => 0

/-- From Results.tsx (line 1132): the only updater of the local-explanation
sample index state, Math.max of 0 and Number(value) or-else 0. -/
def setXaiSampleIndexUpdate (parse : String → Option ℚ) (value : String) : ℚ :=
  max 0 (jsOrZero (parse value))

/-- The sample index state after a sequence of change events on the input
field, starting from the initial state 0 (Results.tsx line 61). -/
def xaiSampleIndexAfter (parse : String → Option ℚ) (events : List String) : ℚ :=
  events.foldl (fun _ value => setXaiSampleIndexUpdate parse value) 0

/-- From Results.tsx loadXai (line 171) and its call sites (lines 1109, 1155):
the sample index forwarded in the explainability request is the state value,
unchanged. -/
def loadXaiRequestIndex (stateValue : ℚ) : ℚ :=
  stateValue

/-- Modelled from the spec: session status values of §3, absent from the
reviewed source together with the whole backend. -/
inductive SessionStatus where
  | pending
  | running
  | completed
  | failed
deriving DecidableEq, Repr

/-- Modelled from the spec: the ModelResult record of §3 (metric mapping,
training time, cross-validation statistics, and a reference to the Artifact
Registry entry); the backend producing it is absent from the reviewed
source. -/
structure ModelResult where
  model_name : String
  metrics : List (String × ℚ)
  training_time : ℚ
  cv_mean : ℚ
  cv_std : ℚ
  cv_scores : List ℚ
  artifact_ref : String
deriving DecidableEq, Repr

/-- Modelled from the spec (§4.3): the primary metric key for a problem type,
accuracy for classification and r2 for regression; clustering sessions reach
the aggregator only in the r2 branch of this model. -/
def primaryMetricKey : ProblemType → String
  | .classification => "accuracy"
  | .regression => "r2"
  | .clustering => "r2"

/-- Modelled from the spec (§4.3): the primary metric value of a ModelResult,
read from its metric mapping. -/
def primaryMetric (pt : ProblemType) (r : ModelResult) : ℚ :=
  (r.metrics.lookup (primaryMetricKey pt)).getD 0

/-- Modelled from the spec (§4.3): strict ranking between two ModelResults;
higher primary metric first, ties broken by higher cv_mean, then by lower
training_time. -/
def rankBetter (pt : ProblemType) (a b : ModelResult) : Bool :=
  if primaryMetric pt a ≠ primaryMetric pt b then
    decide (primaryMetric pt b < primaryMetric pt a)
  else if a.cv_mean ≠ b.cv_mean then
    decide (b.cv_mean < a.cv_mean)
  else
    decide (a.training_time < b.training_time)

/-- Modelled from the spec (§4.3): one fold step of the aggregator, keeping
the strictly better candidate. -/
def bestFoldStep (pt : ProblemType) (best : Option ModelResult) (r : ModelResult) :
    Option ModelResult :=
  match best with
  | none => some r
  | some b => if rankBetter pt r b then some r else some b

/-- Modelled from the spec (§4.3): the Results Aggregator selects the best
model by folding over the ModelResults, so a maximal element under the ranking
wins. -/
def selectBest (pt : ProblemType) (rs : List ModelResult) : Option ModelResult :=
  rs.foldl (bestFoldStep pt) none

/-- Modelled from the spec (§3, §4.1): one session record of the Session State
Store; the store itself is absent from the reviewed source. -/
structure SessionState where
  status : SessionStatus
  config : TrainingRequest
  completed_models : List String
  results : List (String × ModelResult)
  failures : List (String × String)
  pending_models : List String
  best_model : Option String
  error : Option String

/-- Modelled from the spec (§4.1): create(config) builds a pending session
whose scheduled tasks are exactly the selected algorithms. -/
def createSession (request : TrainingRequest) : SessionState :=
  { status := .pending
    config := request
    completed_models := []
    results := []
    failures := []
    pending_models := request.selected_algorithms
    best_model := none
    error := none }

/-- Modelled from the spec (§6): total_models reported by the progress
endpoint, the number of selected algorithms of the session config. -/
def totalModels (s : SessionState) : ℕ :=
  s.config.selected_algorithms.length

/-- Modelled from the spec (§4.1, §6): the cheap polling snapshot
{status, completed_models, total_models, error}. -/
structure ProgressSnapshot where
  status : SessionStatus
  completed_models : List String
  total_models : ℕ
  error : Option String
deriving DecidableEq, Repr

/-- Modelled from the spec (§4.1): get_snapshot, the consistent polling
read. -/
def getSnapshot (s : SessionState) : ProgressSnapshot :=
  { status := s.status
    completed_models := s.completed_models
    total_models := totalModels s
    error := s.error }

/-- Modelled from the spec (§4.1): finalize computes best_model through the
Results Aggregator and moves the session to completed, or to failed with an
aggregate error when no ModelResult exists. -/
def finalizeSession (s : SessionState) : SessionState :=
  if s.results = [] then
    { s with status := .failed, error := some "All selected models failed to train" }
  else
    { s with
      status := .completed
      best_model := (selectBest s.config.problem_type (s.results.map Prod.snd)).map
        ModelResult.model_name }

/-- Modelled from the spec (§4.1, §4.2, §5): the serialized mutating
operations the scheduler performs on one session.  record_success appends the
model name to completed_models and inserts its ModelResult; record_failure
records the error and contributes no ModelResult; each terminates one pending
task, and finalize runs once every task has terminated. -/
inductive SessionStep : SessionState → SessionState → Prop where
  | markRunning (s : SessionState) (h : s.status = .pending) :
      SessionStep s { s with status := .running }
  | recordSuccess (s : SessionState) (name : String) (result : ModelResult)
      (hs : s.status = .running) (hmem : name ∈ s.pending_models) :
      SessionStep s
        { s with
          completed_models := s.completed_models ++ [name]
          results := s.results ++ [(name, result)]
          pending_models := s.pending_models.erase name }
  | recordFailure (s : SessionState) (name : String) (msg : String)
      (hs : s.status = .running) (hmem : name ∈ s.pending_models) :
      SessionStep s
        { s with
          failures := s.failures ++ [(name, msg)]
          pending_models := s.pending_models.erase name }
  | finalize (s : SessionState) (hs : s.status = .running)
      (hdone : s.pending_models = []) :
      SessionStep s (finalizeSession s)

/-- Reflexive-transitive closure of SessionStep: what can happen to a session
between two polls. -/
inductive SessionSteps : SessionState → SessionState → Prop where
  | refl (s : SessionState) : SessionSteps s s
  | tail {s t u : SessionState} (h1 : SessionSteps s t) (h2 : SessionStep t u) :
      SessionSteps s u

/-- Modelled from the spec (§3, §4.5): one Artifact Registry entry for a
(session, model name) pair: the captured input schema, the missing-value
defaults of the fitted transformer, the estimator applied through that
transformer, and the evaluation samples kept for local explanations. -/
structure ArtifactEntry where
  schema : List SchemaColumn
  defaults : String → JsValue
  estimate : List (String × JsValue) → ℚ
  shapValues : List (String × JsValue) → List (String × ℚ)
  eval_samples : List (List (String × JsValue))

/-- Modelled from the spec (§4.1, §9): the keyed store of sessions and
artifacts, with fresh never-reused ids drawn from a counter. -/
structure SessionStore where
  sessions : List (ℕ × SessionState)
  artifacts : List ((ℕ × String) × ArtifactEntry)
  nextId : ℕ

/-- Modelled from the spec (§6): the submit-training response carries the
session id and nothing else. -/
structure SubmitResponse where
  session_id : ℕ
deriving DecidableEq, Repr

/-- Modelled from the spec (§2, §4.1): submitting a training request creates a
pending session under a fresh id and returns that id immediately, before any
training task has run. -/
def submitTraining (request : TrainingRequest) (store : SessionStore) :
    SubmitResponse × SessionStore :=
  ({ session_id := store.nextId },
   { sessions := (store.nextId, createSession request) :: store.sessions
     artifacts := store.artifacts
     nextId := store.nextId + 1 })

/-- From Dashboard.tsx handleTrain (line 612): the client reads the session id
from the submit response and then learns progress only by polling. -/
def dashboardSessionId (resp : SubmitResponse) : ℕ :=
  resp.session_id

/-- Look up a session in the store by id. -/
def findSession (store : SessionStore) (sid : ℕ) : Option SessionState :=
  (store.sessions.find? (fun p => p.1 == sid)).map Prod.snd

/-- Look up an artifact in the registry by (session, model name). -/
def findArtifact (store : SessionStore) (sid : ℕ) (name : String) :
    Option ArtifactEntry :=
  (store.artifacts.find? (fun p => p.1.1 == sid && p.1.2 == name)).map Prod.snd

/-- Modelled from the spec (§7): the error taxonomy surfaced to queries. -/
inductive ApiError where
  | notFound
  | notReady
deriving DecidableEq, Repr

/-- Modelled from the spec (§4.1): get_full fails with NotFound when the id is
unknown or deleted. -/
def getFull (store : SessionStore) (sid : ℕ) : Except ApiError SessionState :=
  match findSession store sid with
  | none => Except.error ApiError.notFound
  | some s => Except.ok s

/-- Modelled from the spec (§4.5): a value counts as missing when the column
is absent from the inputs or its value is empty (null, undefined, or the
empty string). -/
def isMissingValue : Option JsValue → Bool
  | none => true
  | some .vUndef => true
  | some .vNull => true
  | some (.vStr "") => true
  | some _ => false

/-- Modelled from the spec (§4.5): the missing_inputs list names exactly the
schema columns whose value is absent or empty. -/
def missingColumns (schema : List SchemaColumn) (inputs : List (String × JsValue)) :
    List String :=
  (schema.filter (fun c => isMissingValue (inputs.lookup c.name))).map SchemaColumn.name

/-- Modelled from the spec (§4.4, §4.5): the fitted transformer supplies its
missing-value defaults for every absent or empty column before the estimator
runs. -/
def applyDefaults (artifact : ArtifactEntry) (inputs : List (String × JsValue)) :
    List (String × JsValue) :=
  artifact.schema.map (fun c =>
    (c.name,
      match inputs.lookup c.name with
      | some v => if isMissingValue (some v) then artifact.defaults c.name else v
      | none => artifact.defaults c.name))

/-- Modelled from the spec (§4.5, §6): the predict response. -/
structure PredictResponse where
  prediction : ℚ
  probabilities : Option (List (String × ℚ))
  missing_inputs : List String

/-- Modelled from the spec (§4.5): the Prediction Service.  NotFound for an
unknown session or artifact, NotReady before completion, and otherwise a
prediction with defaults applied and missing_inputs reported, never an
exception for missing columns. -/
def predictService (store : SessionStore) (sid : ℕ) (modelName : Option String)
    (inputs : List (String × JsValue)) : Except ApiError PredictResponse :=
  match findSession store sid with
  | none => Except.error ApiError.notFound
  | some session =>
    if session.status ≠ SessionStatus.completed then Except.error ApiError.notReady
    else
      match modelName.orElse (fun _ => session.best_model) with
      | none => Except.error ApiError.notFound
      | some name =>
        match findArtifact store sid name with
        | none => Except.error ApiError.notFound
        | some artifact =>
          Except.ok
            { prediction := artifact.estimate (applyDefaults artifact inputs)
              probabilities := none
              missing_inputs := missingColumns artifact.schema inputs }

/-- Modelled from the spec (§4.1, §6): delete removes the session and every
artifact of that session, answers with a fixed message, and treats an unknown
id as a no-op rather than an error. -/
def deleteSessionStore (store : SessionStore) (sid : ℕ) : SessionStore × String :=
  ({ sessions := store.sessions.filter (fun p => p.1 != sid)
     artifacts := store.artifacts.filter (fun p => p.1.1 != sid)
     nextId := store.nextId },
   "Session deleted")

/-- Modelled from the spec (§4.6, §6): the local-explanation response. -/
structure ExplanationResponse where
  prediction : ℚ
  shap_contributions : List (String × ℚ)
  lime_explanation : Option String

/-- Modelled from the spec (§4.6): the Explainability Service local
explanation; requires a completed session, works on the stored artifact of
the best model, and clamps an out-of-range sample index to the last available
evaluation sample instead of failing. -/
def localExplanation (store : SessionStore) (sid : ℕ) (sampleIndex : ℕ) :
    Except ApiError ExplanationResponse :=
  match findSession store sid with
  | none => Except.error ApiError.notFound
  | some session =>
    if session.status ≠ SessionStatus.completed then Except.error ApiError.notReady
    else
      match session.best_model with
      | none => Except.error ApiError.notFound
      | some name =>
        match findArtifact store sid name with
        | none => Except.error ApiError.notFound
        | some artifact =>
          let samples := artifact.eval_samples
          let row := samples.getD (min sampleIndex (samples.length - 1)) []
          Except.ok
            { prediction := artifact.estimate row
              shap_contributions := artifact.shapValues row
              lime_explanation := none }

/-! Theorems -/

/-- Claim C6: a training request whose configuration is invalid — the target
column appears in the selected feature list, the feature list is empty, or the
algorithm list is empty — makes handleTrain return a rejection toast without
calling the training endpoint, and every request actually submitted has a
nonempty feature list, a nonempty algorithm list, and a target column that
does not appear in its feature list. -/
theorem handleTrain_rejects_invalid_configs (st : DashboardState) :
    ((st.selectedFeatures.contains st.selectedTarget = true ∨
        st.selectedFeatures = [] ∨ st.selectedAlgorithms = []) →
      ∃ msg, handleTrain st = TrainAction.reject msg) ∧
    (∀ req, handleTrain st = TrainAction.submit req →
      req.selected_features ≠ [] ∧ req.selected_algorithms ≠ [] ∧
      req.selected_features.contains st.selectedTarget = false ∧
      ∀ t, req.target_column = some t → req.selected_features.contains t = false) := by
  constructor
  · intro h
    unfold handleTrain
    split
    · exact ⟨_, rfl⟩
    · split
      · exact ⟨_, rfl⟩
      · split
        · exact ⟨_, rfl⟩
        · split
          · exact ⟨_, rfl⟩
          · rename_i h1 h2 h3 h4
            exfalso
            rcases h with hc | hf | ha
            · exact h4 hc
            · exact h3 hf
            · exact h2 ha
  · intro req hreq
    unfold handleTrain at hreq
    split at hreq
    · exact absurd hreq (by simp)
    · split at hreq
      · exact absurd hreq (by simp)
      · split at hreq
        · exact absurd hreq (by simp)
        · split at hreq
          · exact absurd hreq (by simp)
          · rename_i h1 h2 h3 h4
            cases hreq
            refine ⟨h3, h2, Bool.not_eq_true _ ▸ eq_false_of_ne_true h4, ?_⟩
            intro t ht
            by_cases hcl : st.problemType = ProblemType.clustering
            · simp [hcl] at ht
            · simp only [if_neg hcl, Option.some.injEq] at ht
              subst ht
              exact eq_false_of_ne_true h4

/-- Witness for claim C6, both branches at concrete dashboard states: a state
whose target sits inside the feature list is rejected, and a submitted request
from a clean state satisfies the invariants. -/
theorem handleTrain_rejects_invalid_configs_witness :
    (∃ msg,
      handleTrain
        { fileId := "f", selectedTarget := "y", selectedFeatures := ["x", "y"],
          problemType := ProblemType.classification,
          selectedAlgorithms := ["LogisticRegression"],
          config := { testSize := 1, randomState := 42, cvFolds := 5 } } =
        TrainAction.reject msg) ∧
    (∀ req,
      handleTrain
        { fileId := "f", selectedTarget := "y", selectedFeatures := ["x"],
          problemType := ProblemType.classification,
          selectedAlgorithms := ["LogisticRegression"],
          config := { testSize := 1, randomState := 42, cvFolds := 5 } } =
        TrainAction.submit req →
      req.selected_features ≠ [] ∧ req.selected_algorithms ≠ [] ∧
      req.selected_features.contains "y" = false ∧
      ∀ t, req.target_column = some t → req.selected_features.contains t = false) :=
  ⟨(handleTrain_rejects_invalid_configs _).1 (Or.inl (by decide)),
   (handleTrain_rejects_invalid_configs _).2⟩

/-- Claim C5 counterexample: a non-numeric column whose raw value is the empty
string is not passed through unchanged — handleRunPreview maps it to null, so
the built inputs entry differs from the raw value. -/
theorem buildInputs_empty_nonnumeric_counterexample :
    buildInputs (fun _ => none) [⟨"city", "object", JsValue.vStr "a"⟩]
        (fun _ => JsValue.vStr "") = [("city", JsValue.vNull)] ∧
      JsValue.vNull ≠ JsValue.vStr "" ∧ dtypeIsNumeric "object" = false := by
  refine ⟨by decide, by decide, by decide⟩

/-- Claim C5 (amended): empty or undefined raw values are mapped to null for
every column; on numeric dtypes the remaining values are parsed as numbers
with parse failure mapped to null; non-numeric columns pass their raw value
through unchanged when it is neither empty nor undefined; and the built inputs
mapping has exactly the schema column names as its domain. -/
theorem buildInputs_coercion (parse : String → Option ℚ) (schema : List SchemaColumn)
    (previewInputs : String → JsValue) :
    ((buildInputs parse schema previewInputs).map Prod.fst =
        schema.map SchemaColumn.name) ∧
    (∀ dtype raw, (raw = JsValue.vStr "" ∨ raw = JsValue.vUndef) →
        coerceValue parse dtype raw = JsValue.vNull) ∧
    (∀ dtype raw, dtypeIsNumeric dtype = true →
        ¬ raw = JsValue.vStr "" → ¬ raw = JsValue.vUndef →
        ((∃ q, jsNumberOf parse raw = some q ∧
            coerceValue parse dtype raw = JsValue.vNum q) ∨
         (jsNumberOf parse raw = none ∧ coerceValue parse dtype raw = JsValue.vNull))) ∧
    (∀ dtype raw, dtypeIsNumeric dtype = false →
        ¬ raw = JsValue.vStr "" → ¬ raw = JsValue.vUndef →
        coerceValue parse dtype raw = raw) ∧
    (∀ c ∈ schema,
        (c.name, coerceValue parse c.dtype (previewInputs c.name)) ∈
          buildInputs parse schema previewInputs) := by
  refine ⟨?_, ?_, ?_, ?_, ?_⟩
  · simp [buildInputs]
  · intro dtype raw h
    unfold coerceValue
    rw [if_pos h]
  · intro dtype raw hnum h1 h2
    unfold coerceValue
    rw [if_neg (by tauto), if_pos hnum]
    cases hq : jsNumberOf parse raw with
    | some q => exact Or.inl ⟨q, rfl, rfl⟩
    | none => exact Or.inr ⟨rfl, rfl⟩
  · intro dtype raw hnum h1 h2
    unfold coerceValue
    rw [if_neg (by tauto), if_neg (by simp [hnum])]
  · intro c hc
    exact List.mem_map.mpr ⟨c, hc, rfl⟩

/-- Witness for claim C5 (amended): a present non-empty string on a
non-numeric column survives coercion unchanged. -/
theorem buildInputs_coercion_witness :
    coerceValue (fun _ => none) "object" (JsValue.vStr "x") = JsValue.vStr "x" :=
  (buildInputs_coercion (fun _ => none) [] (fun _ => JsValue.vUndef)).2.2.2.1 "object"
    (JsValue.vStr "x") (by decide) (by decide) (by decide)

/-- Claim C9: the Api context value omits predictModel, getExplainability and
getFeatureImportance, so for every session the Results page preview always
ends in the Failed to run preview toast and loadXai always ends in the
Failed to load explainability data error, whatever the backend endpoints would
have answered. -/
theorem resultsPage_api_members_missing (α β γ : Type) (sid : String)
    (parse : String → Option ℚ) (schema : List SchemaColumn)
    (previewInputs : String → JsValue)
    (callPredict : List (String × JsValue) → Except String α)
    (callExplain : ℚ → Except String β) (callImportance : String → Except String γ)
    (sampleIndex : ℚ) (method : String) :
    apiContextValueKeys.contains "predictModel" = false ∧
    apiContextValueKeys.contains "getExplainability" = false ∧
    apiContextValueKeys.contains "getFeatureImportance" = false ∧
    handleRunPreview apiContextValueKeys (some sid) parse schema previewInputs
        callPredict = PreviewOutcome.toastFailure "Failed to run preview" ∧
    loadXai apiContextValueKeys (some sid) callExplain callImportance sampleIndex
        method = XaiOutcome.errorSet "Failed to load explainability data" := by
  refine ⟨by decide, by decide, by decide, ?_, ?_⟩
  · simp [handleRunPreview, callMember, apiContextValueKeys, apiContextStateFields]
  · simp [loadXai, callMember, apiContextValueKeys, apiContextStateFields]

/-- Every fold of sample-index updates keeps a non-negative accumulator
non-negative, because each update takes a maximum with 0. -/
lemma foldl_xaiUpdate_nonneg (parse : String → Option ℚ) :
    ∀ (events : List String) (acc : ℚ), 0 ≤ acc →
      0 ≤ events.foldl (fun _ value => setXaiSampleIndexUpdate parse value) acc
  | [], _, h => h
  | _ :: rest, _, _ => foldl_xaiUpdate_nonneg parse rest _ (le_max_left 0 _)

/-- Claim C10: starting from the initial value 0, every sequence of change
events leaves the sample index state non-negative, and loadXai forwards the
state value unchanged as the request index. -/
theorem xaiSampleIndex_nonneg (parse : String → Option ℚ) (events : List String) :
    0 ≤ xaiSampleIndexAfter parse events ∧
    loadXaiRequestIndex (xaiSampleIndexAfter parse events) =
      xaiSampleIndexAfter parse events :=
  ⟨foldl_xaiUpdate_nonneg parse events 0 (le_refl 0), rfl⟩

/-- A concrete training request used by witness theorems. -/
def sampleRequest : TrainingRequest :=
  { file_id := "f"
    target_column := some "y"
    selected_features := ["x"]
    problem_type := ProblemType.classification
    selected_algorithms := ["A", "B"]
    test_size := 1
    random_state := 42
    cv_folds := 5 }

/-- A concrete ModelResult used by witness theorems. -/
def sampleResult : ModelResult :=
  { model_name := "A"
    metrics := [("accuracy", 1)]
    training_time := 1
    cv_mean := 1
    cv_std := 0
    cv_scores := [1]
    artifact_ref := "A" }

/-- A concrete artifact with a two-column schema and one evaluation sample,
used by witness theorems. -/
def sampleArtifact : ArtifactEntry :=
  { schema := [⟨"age", "int64", JsValue.vNum 30⟩, ⟨"city", "object", JsValue.vStr "a"⟩]
    defaults := fun _ => JsValue.vNull
    estimate := fun _ => 1
    shapValues := fun _ => []
    eval_samples := [[("age", JsValue.vNum 30)]] }

/-- A concrete completed session used by witness theorems. -/
def sampleCompletedSession : SessionState :=
  { status := SessionStatus.completed
    config := sampleRequest
    completed_models := ["A"]
    results := [("A", sampleResult)]
    failures := []
    pending_models := []
    best_model := some "A"
    error := none }

/-- A concrete store holding the completed session under id 0, used by
witness theorems. -/
def sampleStore : SessionStore :=
  { sessions := [(0, sampleCompletedSession)]
    artifacts := [((0, "A"), sampleArtifact)]
    nextId := 1 }

/-- Claim C2: submitting a training request answers immediately with a
response carrying only the fresh session id; the created session starts
pending with no completed model, and its only possible first transition is to
running, so training results can reach the client only through later polls. -/
theorem submitTraining_immediate_pending (request : TrainingRequest)
    (store : SessionStore) :
    (submitTraining request store).1 = { session_id := store.nextId } ∧
    dashboardSessionId (submitTraining request store).1 = store.nextId ∧
    findSession (submitTraining request store).2 store.nextId =
      some (createSession request) ∧
    (createSession request).status = SessionStatus.pending ∧
    (createSession request).completed_models = [] ∧
    SessionStep (createSession request)
      { createSession request with status := SessionStatus.running } ∧
    (∀ s, SessionStep (createSession request) s →
      s.status = SessionStatus.running) := by
  refine ⟨rfl, rfl, ?_, rfl, rfl, SessionStep.markRunning _ rfl, ?_⟩
  · simp [findSession, submitTraining]
  · intro s hs
    cases hs with
    | markRunning h => rfl
    | recordSuccess name result hst hmem => exact absurd hst (by simp [createSession])
    | recordFailure name msg hst hmem => exact absurd hst (by simp [createSession])
    | finalize hst hdone => exact absurd hst (by simp [createSession])

/-- Witness for claim C2 at a concrete request and store, including the
discharge of the step hypothesis of its last part at the markRunning step. -/
theorem submitTraining_immediate_pending_witness :
    (submitTraining sampleRequest { sessions := [], artifacts := [], nextId := 0 }).1 =
      { session_id := 0 } ∧
    { createSession sampleRequest with status := SessionStatus.running }.status =
      SessionStatus.running :=
  ⟨(submitTraining_immediate_pending sampleRequest
      { sessions := [], artifacts := [], nextId := 0 }).1,
   (submitTraining_immediate_pending sampleRequest
      { sessions := [], artifacts := [], nextId := 0 }).2.2.2.2.2.2 _
     (SessionStep.markRunning _ rfl)⟩

/-- After a delete, no session under the deleted id can be found. -/
lemma findSession_after_delete (store : SessionStore) (sid : ℕ) :
    findSession (deleteSessionStore store sid).1 sid = none := by
  unfold findSession deleteSessionStore
  have h : List.find? (fun p => p.1 == sid)
      (store.sessions.filter (fun p => p.1 != sid)) = none := by
    rw [List.find?_eq_none]
    intro p hp
    have h2 := (List.mem_filter.mp hp).2
    simpa using h2
  rw [h]
  rfl

/-- After a delete, no artifact under the deleted id can be found. -/
lemma findArtifact_after_delete (store : SessionStore) (sid : ℕ) (name : String) :
    findArtifact (deleteSessionStore store sid).1 sid name = none := by
  unfold findArtifact deleteSessionStore
  have h : List.find? (fun p => p.1.1 == sid && p.1.2 == name)
      (store.artifacts.filter (fun p => p.1.1 != sid)) = none := by
    rw [List.find?_eq_none]
    intro p hp
    have h2 := (List.mem_filter.mp hp).2
    simp only [bne_iff_ne, ne_eq] at h2
    simp only [Bool.and_eq_true, beq_iff_eq, not_and]
    intro ha _
    exact h2 ha
  rw [h]
  rfl

/-- Claim C7: deleting a session is idempotent — a second delete of the same
id changes nothing and still answers the normal message — and after a delete
both get_full and predict on that id answer NotFound, while every artifact of
the session is gone from the registry. -/
theorem deleteSession_idempotent_cascades (store : SessionStore) (sid : ℕ)
    (modelName : Option String) (name : String) (inputs : List (String × JsValue)) :
    (deleteSessionStore (deleteSessionStore store sid).1 sid).1 =
      (deleteSessionStore store sid).1 ∧
    (deleteSessionStore (deleteSessionStore store sid).1 sid).2 = "Session deleted" ∧
    getFull (deleteSessionStore store sid).1 sid = Except.error ApiError.notFound ∧
    predictService (deleteSessionStore store sid).1 sid modelName inputs =
      Except.error ApiError.notFound ∧
    findArtifact (deleteSessionStore store sid).1 sid name = none := by
  refine ⟨?_, rfl, ?_, ?_, findArtifact_after_delete store sid name⟩
  · unfold deleteSessionStore
    simp [List.filter_filter]
  · unfold getFull
    rw [findSession_after_delete]
  · unfold predictService
    rw [findSession_after_delete]

/-- Claim C4: on a completed session whose artifact exists, predict never
fails for missing inputs — it answers a prediction computed with the
transformer defaults filled in, together with a missing_inputs list naming
exactly the schema columns whose value is absent or empty, and that list is
nonempty whenever some column is missing. -/
theorem predictService_reports_missing_inputs (store : SessionStore) (sid : ℕ)
    (name : String) (session : SessionState) (artifact : ArtifactEntry)
    (inputs : List (String × JsValue))
    (hsession : findSession store sid = some session)
    (hstatus : session.status = SessionStatus.completed)
    (hartifact : findArtifact store sid name = some artifact) :
    ∃ r, predictService store sid (some name) inputs = Except.ok r ∧
      r.prediction = artifact.estimate (applyDefaults artifact inputs) ∧
      r.missing_inputs =
        (artifact.schema.filter (fun c => isMissingValue (inputs.lookup c.name))).map
          SchemaColumn.name ∧
      ((∃ c ∈ artifact.schema, isMissingValue (inputs.lookup c.name) = true) →
        r.missing_inputs ≠ []) := by
  unfold predictService
  rw [hsession]
  simp only [hstatus, ne_eq, not_true_eq_false, if_false, Option.orElse]
  rw [hartifact]
  refine ⟨_, rfl, rfl, rfl, ?_⟩
  rintro ⟨c, hc, hm⟩
  unfold missingColumns
  intro hnil
  rw [List.map_eq_nil_iff] at hnil
  have : c ∈ artifact.schema.filter (fun c => isMissingValue (inputs.lookup c.name)) :=
    List.mem_filter.mpr ⟨hc, hm⟩
  rw [hnil] at this
  exact absurd this (List.not_mem_nil c)

/-- Witness for claim C4 at the concrete sample store: an input set lacking
the city column yields an ok prediction whose missing_inputs is nonempty. -/
theorem predictService_reports_missing_inputs_witness :
    ∃ r, predictService sampleStore 0 (some "A") [("age", JsValue.vNum 30)] =
        Except.ok r ∧ r.missing_inputs ≠ [] := by
  obtain ⟨r, h1, _, _, h4⟩ := predictService_reports_missing_inputs sampleStore 0 "A"
    sampleCompletedSession sampleArtifact [("age", JsValue.vNum 30)] rfl rfl rfl
  exact ⟨r, h1, h4 ⟨⟨"city", "object", JsValue.vStr "a"⟩, by decide, by decide⟩⟩

/-- Claim C8: on a completed session, a local-explanation request whose
sample index is at least the evaluation sample count yields the same answer as
the last available index — an ok explanation of the last sample, not an error —
while the client updater enforces only the lower bound and loadXai forwards
the state value unchanged. -/
theorem localExplanation_clamps_index (store : SessionStore) (sid : ℕ)
    (name : String) (session : SessionState) (artifact : ArtifactEntry) (idx : ℕ)
    (hsession : findSession store sid = some session)
    (hstatus : session.status = SessionStatus.completed)
    (hbest : session.best_model = some name)
    (hartifact : findArtifact store sid name = some artifact)
    (_hne : artifact.eval_samples ≠ [])
    (hidx : artifact.eval_samples.length ≤ idx) :
    localExplanation store sid idx =
      localExplanation store sid (artifact.eval_samples.length - 1) ∧
    (∃ r, localExplanation store sid idx = Except.ok r ∧
      r.prediction = artifact.estimate
        (artifact.eval_samples.getD (artifact.eval_samples.length - 1) [])) ∧
    (∀ parse s, ∀ q : ℚ, parse s = some q → 0 < q →
      setXaiSampleIndexUpdate parse s = q) ∧
    (∀ v : ℚ, loadXaiRequestIndex v = v) := by
  have hmin1 : min idx (artifact.eval_samples.length - 1) =
      artifact.eval_samples.length - 1 :=
    Nat.min_eq_right (le_trans (Nat.sub_le _ _) hidx)
  have hmin2 : min (artifact.eval_samples.length - 1)
      (artifact.eval_samples.length - 1) = artifact.eval_samples.length - 1 :=
    Nat.min_self _
  unfold localExplanation
  rw [hsession]
  simp only [hstatus, ne_eq, not_true_eq_false, if_false, hbest, hartifact, hmin1,
    hmin2]
  refine ⟨trivial, ⟨_, rfl, rfl⟩, ?_, fun v => rfl⟩
  intro parse s q hparse hq
  unfold setXaiSampleIndexUpdate jsOrZero
  rw [hparse]
  change (0 ⊔ (if q = 0 then 0 else q)) = q
  rw [if_neg (ne_of_gt hq)]
  exact max_eq_right (le_of_lt hq)

/-- The bookkeeping invariant of a session created from a request: the config
is never mutated, and the completed and still-pending tasks together never
exceed the selected algorithms. -/
def SessionInv (request : TrainingRequest) (s : SessionState) : Prop :=
  s.config = request ∧
  s.completed_models.length + s.pending_models.length ≤
    request.selected_algorithms.length

/-- A freshly created session satisfies the bookkeeping invariant. -/
lemma createSession_inv (request : TrainingRequest) :
    SessionInv request (createSession request) :=
  ⟨rfl, le_of_eq (by simp [createSession])⟩

/-- Every session step preserves the bookkeeping invariant. -/
lemma sessionStep_inv {request : TrainingRequest} {s t : SessionState}
    (h : SessionStep s t) (hs : SessionInv request s) : SessionInv request t := by
  obtain ⟨hcfg, hlen⟩ := hs
  cases h with
  | markRunning h => exact ⟨hcfg, hlen⟩
  | recordSuccess name result hst hmem =>
    refine ⟨hcfg, ?_⟩
    have herase : (s.pending_models.erase name).length = s.pending_models.length - 1 :=
      List.length_erase_of_mem hmem
    have hpos : 1 ≤ s.pending_models.length := List.length_pos.mpr (by
      intro hnil
      rw [hnil] at hmem
      exact List.not_mem_nil name hmem)
    simp only [List.length_append, List.length_cons, List.length_nil, herase]
    omega
  | recordFailure name msg hst hmem =>
    refine ⟨hcfg, ?_⟩
    have herase : (s.pending_models.erase name).length = s.pending_models.length - 1 :=
      List.length_erase_of_mem hmem
    simp only [herase]
    omega
  | finalize hst hdone =>
    unfold finalizeSession
    split
    · exact ⟨hcfg, hlen⟩
    · exact ⟨hcfg, hlen⟩

/-- The bookkeeping invariant is preserved along any sequence of steps. -/
lemma sessionSteps_inv {request : TrainingRequest} {s t : SessionState}
    (h : SessionSteps s t) (hs : SessionInv request s) : SessionInv request t := by
  induction h with
  | refl => exact hs
  | tail h1 h2 ih => exact sessionStep_inv h2 ih

/-- A single step only ever appends to the completed-models list. -/
lemma sessionStep_append {s t : SessionState} (h : SessionStep s t) :
    ∃ d, t.completed_models = s.completed_models ++ d := by
  cases h with
  | markRunning h => exact ⟨[], by simp⟩
  | recordSuccess name result hst hmem => exact ⟨[name], rfl⟩
  | recordFailure name msg hst hmem => exact ⟨[], by simp⟩
  | finalize hst hdone =>
    refine ⟨[], ?_⟩
    unfold finalizeSession
    split <;> simp

/-- A sequence of steps only ever appends to the completed-models list. -/
lemma sessionSteps_append {s t : SessionState} (h : SessionSteps s t) :
    ∃ d, t.completed_models = s.completed_models ++ d := by
  induction h with
  | refl => exact ⟨[], by simp⟩
  | tail h1 h2 ih =>
    obtain ⟨d1, hd1⟩ := ih
    obtain ⟨d2, hd2⟩ := sessionStep_append h2
    exact ⟨d1 ++ d2, by rw [hd2, hd1, List.append_assoc]⟩

/-- Step sequences compose. -/
lemma sessionSteps_trans {s t u : SessionState} (h1 : SessionSteps s t)
    (h2 : SessionSteps t u) : SessionSteps s u := by
  induction h2 with
  | refl => exact h1
  | tail _ hstep ih => exact SessionSteps.tail ih hstep

/-- Reading a list at positions 0, 1, ... recovers the list itself. -/
lemma getD_range_self : ∀ (d : List String),
    (List.range d.length).map (fun i => d.getD i "") = d
  | [] => rfl
  | a :: d => by
    rw [List.length_cons, List.range_succ_eq_map, List.map_cons, List.map_map]
    refine congrArg (a :: ·) ?_
    rw [show ((fun i => (a :: d).getD i "") ∘ Nat.succ) = fun i => d.getD i "" from rfl]
    exact getD_range_self d

/-- Indexing an appended list just past the old length, the way the Dashboard
polling loop reads completed_models at previousCompletedCount + i, recovers
exactly the appended suffix. -/
lemma getD_append_suffix (l d : List String) :
    (List.range d.length).map (fun i => (l ++ d).getD (l.length + i) "") = d := by
  have hcongr : ∀ i ∈ List.range d.length,
      (l ++ d).getD (l.length + i) "" = d.getD i "" := by
    intro i _
    rw [List.getD_append_right l d _ _ (Nat.le_add_right _ _)]
    simp
  rw [List.map_congr_left hcongr]
  exact getD_range_self d

/-- Claim C1: between any two polls of the same session the completed_models
list only grows by appending — the earlier snapshot is a prefix of the later
one — its length never exceeds total_models, and reading the later snapshot at
positions previousCompletedCount + i, as the Dashboard polling loop does,
yields exactly the newly appended model names. -/
theorem completedModels_monotone (request : TrainingRequest) (s t : SessionState)
    (hreach : SessionSteps (createSession request) s)
    (hpoll : SessionSteps s t) :
    ∃ newly,
      (getSnapshot t).completed_models = (getSnapshot s).completed_models ++ newly ∧
      (getSnapshot t).completed_models.length ≤ (getSnapshot t).total_models ∧
      (List.range newly.length).map
        (fun i => (getSnapshot t).completed_models.getD
          ((getSnapshot s).completed_models.length + i) "") = newly := by
  obtain ⟨newly, hnew⟩ := sessionSteps_append hpoll
  have hinv : SessionInv request t :=
    sessionSteps_inv (sessionSteps_trans hreach hpoll) (createSession_inv request)
  refine ⟨newly, hnew, ?_, ?_⟩
  · have hbound : t.completed_models.length ≤ request.selected_algorithms.length :=
      le_trans (Nat.le_add_right _ _) hinv.2
    have htotal : (getSnapshot t).total_models = request.selected_algorithms.length := by
      unfold getSnapshot totalModels
      rw [hinv.1]
    rw [htotal]
    exact hbound
  · have : (getSnapshot t).completed_models =
        (getSnapshot s).completed_models ++ newly := hnew
    rw [this]
    exact getD_append_suffix _ newly

/-- The session after the scheduler has marked the sample request running,
used by witness theorems. -/
def sampleRunningSession : SessionState :=
  { createSession sampleRequest with status := SessionStatus.running }

/-- Witness for claim C1: polling the concrete sample session before and after
model A finishes sees exactly the appended name under a length within
total_models. -/
theorem completedModels_monotone_witness :
    ∃ newly,
      (getSnapshot { sampleRunningSession with
          completed_models := sampleRunningSession.completed_models ++ ["A"]
          results := sampleRunningSession.results ++ [("A", sampleResult)]
          pending_models := sampleRunningSession.pending_models.erase "A" }).completed_models =
        (getSnapshot sampleRunningSession).completed_models ++ newly ∧
      (getSnapshot { sampleRunningSession with
          completed_models := sampleRunningSession.completed_models ++ ["A"]
          results := sampleRunningSession.results ++ [("A", sampleResult)]
          pending_models := sampleRunningSession.pending_models.erase "A" }).completed_models.length ≤
        (getSnapshot { sampleRunningSession with
          completed_models := sampleRunningSession.completed_models ++ ["A"]
          results := sampleRunningSession.results ++ [("A", sampleResult)]
          pending_models := sampleRunningSession.pending_models.erase "A" }).total_models ∧
      (List.range newly.length).map
        (fun i => (getSnapshot { sampleRunningSession with
          completed_models := sampleRunningSession.completed_models ++ ["A"]
          results := sampleRunningSession.results ++ [("A", sampleResult)]
          pending_models := sampleRunningSession.pending_models.erase "A" }).completed_models.getD
          ((getSnapshot sampleRunningSession).completed_models.length + i) "") = newly :=
  completedModels_monotone sampleRequest sampleRunningSession _
    (SessionSteps.tail (SessionSteps.refl _) (SessionStep.markRunning _ rfl))
    (SessionSteps.tail (SessionSteps.refl _)
      (SessionStep.recordSuccess _ "A" sampleResult rfl (by decide)))

/-- Witness for claim C8 at the concrete sample store: index 99999 on the
one-sample evaluation set answers like index 0, and the client updater keeps a
positive parsed value unchanged. -/
theorem localExplanation_clamps_index_witness :
    localExplanation sampleStore 0 99999 = localExplanation sampleStore 0 0 ∧
    setXaiSampleIndexUpdate (fun _ => some 3) "3" = 3 := by
  obtain ⟨h1, _, h3, _⟩ := localExplanation_clamps_index sampleStore 0 "A"
    sampleCompletedSession sampleArtifact 99999 rfl rfl rfl rfl (by decide) (by decide)
  exact ⟨h1, h3 (fun _ => some 3) "3" 3 rfl (by norm_num)⟩

/-- The ranking unfolded: a beats b when its primary metric is higher, or on
equal primary metric its cv_mean is higher, or on equal cv_mean too its
training_time is lower. -/
lemma rankBetter_iff (pt : ProblemType) (a b : ModelResult) :
    rankBetter pt a b = true ↔
      (primaryMetric pt b < primaryMetric pt a ∨
       (primaryMetric pt a = primaryMetric pt b ∧
         (b.cv_mean < a.cv_mean ∨
          (a.cv_mean = b.cv_mean ∧ a.training_time < b.training_time)))) := by
  unfold rankBetter
  by_cases h1 : primaryMetric pt a = primaryMetric pt b
  · by_cases h2 : a.cv_mean = b.cv_mean
    · simp [h1, h2]
    · simp [h1, h2]
  · simp [h1]

/-- Nothing ranks strictly better than itself. -/
lemma rankBetter_irrefl (pt : ProblemType) (a : ModelResult) :
    rankBetter pt a a = false := by
  by_contra h
  rw [Bool.not_eq_false, rankBetter_iff] at h
  rcases h with h | ⟨_, h | ⟨_, h⟩⟩ <;> exact lt_irrefl _ h

/-- The ranking is transitive. -/
lemma rankBetter_trans (pt : ProblemType) {a b c : ModelResult}
    (h1 : rankBetter pt a b = true) (h2 : rankBetter pt b c = true) :
    rankBetter pt a c = true := by
  rw [rankBetter_iff] at h1 h2 ⊢
  rcases h1 with h1 | ⟨e1, h1⟩ <;> rcases h2 with h2 | ⟨e2, h2⟩
  · exact Or.inl (lt_trans h2 h1)
  · exact Or.inl (by rw [← e2]; exact h1)
  · exact Or.inl (by rw [e1]; exact h2)
  · refine Or.inr ⟨e1.trans e2, ?_⟩
    rcases h1 with hc1 | ⟨ec1, ht1⟩ <;> rcases h2 with hc2 | ⟨ec2, ht2⟩
    · exact Or.inl (lt_trans hc2 hc1)
    · exact Or.inl (by rw [← ec2]; exact hc1)
    · exact Or.inl (by rw [ec1]; exact hc2)
    · exact Or.inr ⟨ec1.trans ec2, lt_trans ht1 ht2⟩

/-- Two results with neither ranking better than the other agree on all three
ranking keys. -/
lemma rankBetter_both_false (pt : ProblemType) {a b : ModelResult}
    (h1 : rankBetter pt a b = false) (h2 : rankBetter pt b a = false) :
    primaryMetric pt a = primaryMetric pt b ∧ a.cv_mean = b.cv_mean ∧
      a.training_time = b.training_time := by
  have n1 : ¬ rankBetter pt a b = true := by simp [h1]
  have n2 : ¬ rankBetter pt b a = true := by simp [h2]
  rw [rankBetter_iff] at n1 n2
  by_cases hp : primaryMetric pt a = primaryMetric pt b
  · by_cases hcv : a.cv_mean = b.cv_mean
    · refine ⟨hp, hcv, ?_⟩
      by_contra hne
      rcases lt_or_gt_of_ne hne with h | h
      · exact n1 (Or.inr ⟨hp, Or.inr ⟨hcv, h⟩⟩)
      · exact n2 (Or.inr ⟨hp.symm, Or.inr ⟨hcv.symm, h⟩⟩)
    · exfalso
      rcases lt_or_gt_of_ne hcv with h | h
      · exact n2 (Or.inr ⟨hp.symm, Or.inl h⟩)
      · exact n1 (Or.inr ⟨hp, Or.inl h⟩)
  · exfalso
    rcases lt_or_gt_of_ne hp with h | h
    · exact n2 (Or.inl h)
    · exact n1 (Or.inl h)

/-- Strict ranking is asymmetric. -/
lemma rankBetter_asymm (pt : ProblemType) {a b : ModelResult}
    (h1 : rankBetter pt a b = true) (h2 : rankBetter pt b a = true) : False := by
  have := rankBetter_trans pt h1 h2
  rw [rankBetter_irrefl pt a] at this
  exact Bool.false_ne_true this

/-- Folding the aggregator step from a seed yields a maximal element reachable
from the seed by strict improvements. -/
lemma bestFold_spec (pt : ProblemType) :
    ∀ (rs : List ModelResult) (b : ModelResult),
      ∃ m, rs.foldl (bestFoldStep pt) (some b) = some m ∧
        (m = b ∨ m ∈ rs) ∧ (m = b ∨ rankBetter pt m b = true) ∧
        rankBetter pt b m = false ∧ ∀ x ∈ rs, rankBetter pt x m = false := by
  intro rs
  induction rs with
  | nil =>
    intro b
    exact ⟨b, rfl, Or.inl rfl, Or.inl rfl, rankBetter_irrefl pt b, by simp⟩
  | cons r rest ih =>
    intro b
    by_cases hrb : rankBetter pt r b = true
    · obtain ⟨m, hm, hmem, hchain, hb, hall⟩ := ih r
      refine ⟨m, ?_, ?_, ?_, ?_, ?_⟩
      · rw [List.foldl_cons]
        show rest.foldl (bestFoldStep pt)
          (if rankBetter pt r b then some r else some b) = some m
        rw [if_pos hrb]
        exact hm
      · rcases hmem with h | h
        · exact Or.inr (h ▸ List.mem_cons_self r rest)
        · exact Or.inr (List.mem_cons_of_mem r h)
      · rcases hchain with h | h
        · exact Or.inr (h ▸ hrb)
        · exact Or.inr (rankBetter_trans pt h hrb)
      · by_contra hbm
        rw [Bool.not_eq_false] at hbm
        have hbr : rankBetter pt b r = true := by
          rcases hchain with h | h
          · rw [← h]; exact hbm
          · exact rankBetter_trans pt hbm h
        exact rankBetter_asymm pt hrb hbr
      · intro x hx
        rcases List.mem_cons.mp hx with h | h
        · rw [h]; exact hb
        · exact hall x h
    · obtain ⟨m, hm, hmem, hchain, hb, hall⟩ := ih b
      refine ⟨m, ?_, ?_, hchain, hb, ?_⟩
      · rw [List.foldl_cons]
        show rest.foldl (bestFoldStep pt)
          (if rankBetter pt r b then some r else some b) = some m
        rw [if_neg hrb]
        exact hm
      · exact Or.imp_right (List.mem_cons_of_mem r) hmem
      · intro x hx
        rcases List.mem_cons.mp hx with h | h
        · subst h
          by_contra hrm
          rw [Bool.not_eq_false] at hrm
          rcases hchain with he | hmb
          · rw [he] at hrm
            exact hrb hrm
          · exact hrb (rankBetter_trans pt hrm hmb)
        · exact hall x h

/-- On a nonempty list the aggregator answers some member that nothing in the
list ranks strictly better than. -/
lemma selectBest_spec (pt : ProblemType) (rs : List ModelResult) (hne : rs ≠ []) :
    ∃ m, selectBest pt rs = some m ∧ m ∈ rs ∧
      ∀ x ∈ rs, rankBetter pt x m = false := by
  cases rs with
  | nil => exact absurd rfl hne
  | cons r rest =>
    obtain ⟨m, hm, hmem, _, hb, hall⟩ := bestFold_spec pt rest r
    refine ⟨m, hm, ?_, ?_⟩
    · rcases hmem with h | h
      · exact h ▸ List.mem_cons_self r rest
      · exact List.mem_cons_of_mem r h
    · intro x hx
      rcases List.mem_cons.mp hx with h | h
      · rw [h]; exact hb
      · exact hall x h

/-- A set of ModelResults is tie-free when no two distinct members agree on
primary metric, cv_mean and training_time all at once. -/
def TieFree (pt : ProblemType) (rs : List ModelResult) : Prop :=
  ∀ a ∈ rs, ∀ b ∈ rs,
    primaryMetric pt a = primaryMetric pt b → a.cv_mean = b.cv_mean →
      a.training_time = b.training_time → a = b

/-- On a tie-free list, maximal elements are unique. -/
lemma selectBest_unique (pt : ProblemType) (rs : List ModelResult)
    (hties : TieFree pt rs) {m1 m2 : ModelResult} (h1 : m1 ∈ rs) (h2 : m2 ∈ rs)
    (hmax1 : ∀ x ∈ rs, rankBetter pt x m1 = false)
    (hmax2 : ∀ x ∈ rs, rankBetter pt x m2 = false) : m1 = m2 := by
  obtain ⟨hp, hcv, ht⟩ := rankBetter_both_false pt (hmax2 m1 h1) (hmax1 m2 h2)
  exact hties m1 h1 m2 h2 hp hcv ht

/-- Claim C3 (amended): on every nonempty tie-free set of ModelResults the aggregator
answers the same best model for any completion order — a member of the set
that no other member beats on (primary metric, cv_mean, training_time) in the
lexicographic ranking of §4.3. -/
theorem selectBest_deterministic (pt : ProblemType) (rs rsPerm : List ModelResult)
    (hperm : rs.Perm rsPerm) (hne : rs ≠ []) (hties : TieFree pt rs) :
    ∃ m, selectBest pt rs = some m ∧ selectBest pt rsPerm = some m ∧ m ∈ rs ∧
      ∀ x ∈ rs, rankBetter pt x m = false := by
  obtain ⟨m, hm, hmem, hmax⟩ := selectBest_spec pt rs hne
  have hnePerm : rsPerm ≠ [] := by
    intro h
    exact hne (List.Perm.eq_nil (h ▸ hperm))
  obtain ⟨m2, hm2, hmem2, hmax2⟩ := selectBest_spec pt rsPerm hnePerm
  have hmem2s : m2 ∈ rs := hperm.mem_iff.mpr hmem2
  have hmax2s : ∀ x ∈ rs, rankBetter pt x m2 = false := fun x hx =>
    hmax2 x (hperm.subset hx)
  have heq : m = m2 := selectBest_unique pt rs hties hmem hmem2s hmax hmax2s
  exact ⟨m, hm, heq ▸ hm2, hmem, hmax⟩

/-- A second concrete ModelResult, strictly worse than sampleResult, used by
witness theorems. -/
def sampleResultB : ModelResult :=
  { model_name := "B"
    metrics := [("accuracy", 0)]
    training_time := 2
    cv_mean := 0
    cv_std := 0
    cv_scores := [0]
    artifact_ref := "B" }

/-- A concrete ModelResult tied with tiedResultB on primary metric, cv_mean
and training_time, used to exhibit order dependence of the aggregator. -/
def tiedResultA : ModelResult :=
  { model_name := "A"
    metrics := [("accuracy", 1)]
    training_time := 1
    cv_mean := 1
    cv_std := 0
    cv_scores := [1]
    artifact_ref := "A" }

/-- A concrete ModelResult distinct from tiedResultA but equal to it on all
three ranking keys. -/
def tiedResultB : ModelResult :=
  { model_name := "B"
    metrics := [("accuracy", 1)]
    training_time := 1
    cv_mean := 1
    cv_std := 0
    cv_scores := [1]
    artifact_ref := "B" }

/-- Claim C3 counterexample: on two distinct ModelResults tied on primary
metric, cv_mean and training_time, the aggregator fold returns whichever came
first, so the selection is not independent of completion order on every
non-empty set. -/
theorem selectBest_order_dependent_counterexample :
    selectBest ProblemType.classification [tiedResultA, tiedResultB] =
      some tiedResultA ∧
    selectBest ProblemType.classification [tiedResultB, tiedResultA] =
      some tiedResultB ∧
    tiedResultA ≠ tiedResultB := by
  refine ⟨by decide, by decide, by decide⟩

/-- Witness for claim C3 (amended): the two orders of the concrete tie-free
two-model set give the same maximal answer. -/
theorem selectBest_deterministic_witness :
    ∃ m, selectBest ProblemType.classification [sampleResult, sampleResultB] = some m ∧
      selectBest ProblemType.classification [sampleResultB, sampleResult] = some m ∧
      m ∈ [sampleResult, sampleResultB] ∧
      ∀ x ∈ [sampleResult, sampleResultB],
        rankBetter ProblemType.classification x m = false :=
  selectBest_deterministic ProblemType.classification
    [sampleResult, sampleResultB] [sampleResultB, sampleResult]
    (List.Perm.swap sampleResultB sampleResult []) (by simp)
    (by unfold TieFree; decide)

end MLPipeline
